import Mathlib

/-!
Verification development for the dpkg_divert Ansible module
(src/library/dpkg_divert.py, function main).

The module is embedded as a function from an abstract environment (the
external dpkg-divert tool, invoked through run_command), the validated
task parameters and an initial world (filesystem facts plus the diversion
registry entry for the managed path) to a module result, a final world and
a trace of the events (commands issued, file renames) the module performed.

Machine-level details that the claims do not touch (locale environment,
binary discovery, output message lists) are not modelled; every branch,
command construction and rename of main() is reproduced.
-/

namespace DpkgDivert

def DPKG_DIVERT : String := "dpkg-divert"

/-- Validated task parameters, as delivered by the Ansible argument spec
(path required; state in present/absent; holder, divert optional;
rename, force booleans; checkMode is the module check-mode flag). -/
structure Params where
  path : String
  state : String
  holder : Option String
  divert : Option String
  rename : Bool
  force : Bool
  checkMode : Bool
deriving DecidableEq

/-- A diversion registry entry for the managed path: holding package and
divert target. -/
structure Reg where
  holder : String
  target : String
deriving DecidableEq

/-- World state: the set of paths at which a regular file exists
(os.path.isfile facts) and the registry entry for the managed path. -/
structure World where
  fs : List String
  reg : Option Reg
deriving DecidableEq

def World.isfile (w : World) (s : String) : Bool := w.fs.contains s

/-- Effect of os.rename src dst on the world (the module only calls it
when a file exists at src and none at dst). -/
def World.renameFile (src dst : String) (w : World) : World :=
  ⟨dst :: w.fs.erase src, w.reg⟩

/-- Outcome of one run_command invocation: return code, stdout, stderr. -/
structure CmdOut where
  rc : Nat
  out : String
  err : String
deriving DecidableEq

/-- The external command executor: maps a command line and the current
world to an outcome and the possibly-updated world. -/
abbrev Env := List String → World → CmdOut × World

/-- Python list.insert(i, x): insert x before index i (appends when the
index is beyond the end). -/
def pyInsert : Nat → String → List String → List String
  | 0, x, l => x :: l
  | _ + 1, x, [] => [x]
  | n + 1, x, a :: l => a :: pyInsert n x l

/-- Python str.rstrip(): drop trailing whitespace. -/
def rstrip (s : String) : String :=
  String.mk ((s.data.reverse.dropWhile Char.isWhitespace).reverse)

/-- The no-op output markers recognized at line 214:
re.match of Leaving or No diversion against stdout, that is, stdout
begins with one of the two marker strings. -/
def noopMatch (s : String) : Bool :=
  List.isPrefixOf "Leaving".data s.data || List.isPrefixOf "No diversion".data s.data

/-- COMMANDLINE construction, lines 172-193 of src/library/dpkg_divert.py:
start from [dpkg-divert, path] and insert options. Option values that are
Python-falsy (None or the empty string) are skipped exactly as the
if divert / elif holder truthiness tests do. -/
def buildCommandline (p : Params) : List String :=
  let c := [DPKG_DIVERT, p.path]
  let c := if p.state = "absent" then pyInsert 1 "--remove" c
           else if p.state = "present" then pyInsert 1 "--add" c else c
  let c := if p.rename then pyInsert 1 "--rename" c else pyInsert 1 "--no-rename" c
  let c := match p.divert with
           | some d => if d = "" then c else pyInsert 2 d (pyInsert 1 "--divert" c)
           | none => c
  if p.holder = some "LOCAL" then pyInsert 1 "--local" c
  else match p.holder with
       | some h => if h = "" then c else pyInsert 2 h (pyInsert 1 "--package" c)
       | none => c

/-- TESTCOMMAND, line 197-198: COMMANDLINE with --test inserted at 1. -/
def testCommand (p : Params) : List String := pyInsert 1 "--test" (buildCommandline p)

/-- Lines 199-200: in check mode COMMANDLINE is replaced by TESTCOMMAND. -/
def commandline (p : Params) : List String :=
  if p.checkMode then testCommand p else buildCommandline p

/-- FORCEREMOVE construction, lines 231-238: rebuilt from scratch without
--package and --divert, honoring rename, with --test in check mode. -/
def forceRemoveCmd (p : Params) : List String :=
  let c := [DPKG_DIVERT, "--remove", p.path]
  let c := if p.rename then pyInsert 1 "--rename" c else pyInsert 1 "--no-rename" c
  if p.checkMode then pyInsert 1 "--test" c else c

/-- Line 259-262: new divert target is the caller-supplied divert path,
or path plus .distrib when the divert parameter is absent (or falsy). -/
def newTarget (p : Params) : String :=
  match p.divert with
  | some d => if d = "" then p.path ++ ".distrib" else d
  | none => p.path ++ ".distrib"

/-- RESTORE construction, lines 315-326: re-add the original diversion
using the recorded old target and old holder. -/
def restoreCmd (p : Params) (old oldPkg : String) : List String :=
  let c := [DPKG_DIVERT, "--divert", old, p.path]
  let c := if oldPkg = "LOCAL" then pyInsert 1 "--local" c
           else pyInsert 2 oldPkg (pyInsert 1 "--package" c)
  if p.rename then pyInsert 1 "--rename" c else pyInsert 1 "--no-rename" c

/-- Owner query, line 206: dpkg-divert --listpackage path. -/
def lpCmd (p : Params) : List String := [DPKG_DIVERT, "--listpackage", p.path]

/-- Truename query, line 249: dpkg-divert --truename path. -/
def tnCmd (p : Params) : List String := [DPKG_DIVERT, "--truename", p.path]

/-- The exit point of main() through which the run terminated; each
constructor corresponds to one exit_json or check_rc fail_json site. -/
inductive ExitSite where
  | directFail
  | directNoop
  | directChanged
  | forceRemoveFail
  | forceRemoveDone
  | replaceRemoveFail
  | checkModeReplace
  | replaceDone
  | restoreFail
  | restoreReport
deriving DecidableEq

/-- Module result: exit site, failed and changed flags, stdout, stderr and
the commands reported to the caller. A check_rc failure (fail_json) carries
failed true and no changed key, modelled as changed false. -/
structure Result where
  exitSite : ExitSite
  failed : Bool
  changed : Bool
  stdout : String
  stderr : String
  cmd : List (List String)
deriving DecidableEq

/-- Trace events: an external command invocation, or a rename performed by
the module itself, recorded with the world in force just before it. -/
inductive Ev where
  | cmd (c : List String)
  | ren (src dst : String) (pre : World)
deriving DecidableEq

/-- Lines 258-329 of src/library/dpkg_divert.py: the tail of the
ReplaceDiversion case, entered after the forced removal succeeded in a
real (non check-mode) run. Takes the probed owner output (listpackage)
and the truename output, and the world after the forced removal. Returns
the result, the final world and the events of this phase. -/
def replaceStep (env : Env) (p : Params) (listpackage truename : String)
    (w6 : World) : Result × World × List Ev :=
  let old := rstrip truename
  let nw := newTarget p
  let oldExists := w6.isfile old
  let newExists := w6.isfile nw
  let doPre := p.rename && oldExists && !newExists
  let w7 := if doPre then World.renameFile old nw w6 else w6
  let tr2 := if doPre then [Ev.ren old nw w6] else []
  let q7 := env (commandline p) w7
  let w8 := q7.2
  let tr3 := tr2 ++ [Ev.cmd (commandline p)]
  if q7.1.rc = 0 then
    (⟨.replaceDone, false, true, q7.1.out, q7.1.err,
      [forceRemoveCmd p, commandline p]⟩, w8, tr3)
  else
    let doRoll := p.rename && (oldExists && !(w8.isfile old))
                    && (w8.isfile nw && !newExists)
    let w9 := if doRoll then World.renameFile nw old w8 else w8
    let tr4 := if doRoll then tr3 ++ [Ev.ren nw old w8] else tr3
    let oldPkg := rstrip listpackage
    let q8 := env (restoreCmd p old oldPkg) w9
    let tr5 := tr4 ++ [Ev.cmd (restoreCmd p old oldPkg)]
    if q8.1.rc ≠ 0 then
      (⟨.restoreFail, true, false, q8.1.out, q8.1.err,
        [restoreCmd p old oldPkg]⟩, q8.2, tr5)
    else
      (⟨.restoreReport, true, true, q7.1.out, q7.1.err,
        [forceRemoveCmd p, commandline p]⟩, q8.2, tr5)

/-- The embedding of main() of src/library/dpkg_divert.py, lines 162-329,
over an abstract external executor. Returns the module result, the final
world and the event trace. -/
def runModule (env : Env) (p : Params) (w0 : World) : Result × World × List Ev :=
  let q1 := env (lpCmd p) w0
  let listpackage := q1.1.out
  let q2 := env (testCommand p) q1.2
  let rc := q2.1.rc
  let w2 := q2.2
  let tr0 := [Ev.cmd (lpCmd p), Ev.cmd (testCommand p)]
  if rc = 0 ∨ p.force = false ∨ listpackage = "" then
    -- lines 212-217: run COMMANDLINE with check_rc, classify by marker
    let q3 := env (commandline p) w2
    let tr := tr0 ++ [Ev.cmd (commandline p)]
    if q3.1.rc ≠ 0 then
      (⟨.directFail, true, false, q3.1.out, q3.1.err, [commandline p]⟩, q3.2, tr)
    else if noopMatch q3.1.out then
      (⟨.directNoop, false, false, q3.1.out, q3.1.err, [commandline p]⟩, q3.2, tr)
    else
      (⟨.directChanged, false, true, q3.1.out, q3.1.err, [commandline p]⟩, q3.2, tr)
  else if p.state = "absent" then
    -- lines 242-244: forced removal for state absent
    let q4 := env (forceRemoveCmd p) w2
    let tr := tr0 ++ [Ev.cmd (forceRemoveCmd p)]
    if q4.1.rc ≠ 0 then
      (⟨.forceRemoveFail, true, false, q4.1.out, q4.1.err, [forceRemoveCmd p]⟩, q4.2, tr)
    else
      (⟨.forceRemoveDone, false, true, q4.1.out, q4.1.err, [forceRemoveCmd p]⟩, q4.2, tr)
  else
    -- lines 248-329: replace an existing diversion
    let q5 := env (tnCmd p) w2
    let truename := q5.1.out
    let q6 := env (forceRemoveCmd p) q5.2
    let w6 := q6.2
    let tr1 := tr0 ++ [Ev.cmd (tnCmd p), Ev.cmd (forceRemoveCmd p)]
    if q6.1.rc ≠ 0 then
      (⟨.replaceRemoveFail, true, false, q6.1.out, q6.1.err, [forceRemoveCmd p]⟩, w6, tr1)
    else if p.checkMode then
      (⟨.checkModeReplace, false, true, "", "", [forceRemoveCmd p, commandline p]⟩, w6, tr1)
    else
      let rest := replaceStep env p listpackage truename w6
      (rest.1, rest.2.1, tr1 ++ rest.2.2)

/-! ### Spec-modelled external registry tool

The dpkg-divert tool itself is not part of this repository; spec section 6
specifies it at its interface. The following definitions model that
contract so that whole-run properties (idempotence, check-mode parity) can
be settled. -/

/-- Parsed view of a dpkg-divert command line (everything after the
binary name): flags and their values. Unknown words become the file
operand, as dpkg-divert takes the diverted path as its sole operand. -/
structure ParsedCmd where
  test : Bool
  remove : Bool
  doRename : Bool
  isLocal : Bool
  pkg : Option String
  div : Option String
  file : String
deriving DecidableEq

def pc0 : ParsedCmd := ⟨false, false, false, false, none, none, ""⟩

def parseArgs : List String → ParsedCmd → ParsedCmd
  | [], acc => acc
  | "--test" :: r, acc => parseArgs r {acc with test := true}
  | "--remove" :: r, acc => parseArgs r {acc with remove := true}
  | "--add" :: r, acc => parseArgs r acc
  | "--rename" :: r, acc => parseArgs r {acc with doRename := true}
  | "--no-rename" :: r, acc => parseArgs r acc
  | "--local" :: r, acc => parseArgs r {acc with isLocal := true}
  | "--package" :: v :: r, acc => parseArgs r {acc with pkg := some v}
  | "--divert" :: v :: r, acc => parseArgs r {acc with div := some v}
  | x :: r, acc => parseArgs r {acc with file := x}

/-- The holder a dpkg-divert command denotes: LOCAL for --local or when
no --package was supplied, else the supplied package name. -/
def hEff (pc : ParsedCmd) : String :=
  if pc.isLocal then "LOCAL" else pc.pkg.getD "LOCAL"

/-- The divert target a dpkg-divert command denotes: the --divert value,
or the file operand plus .distrib. -/
def tEff (pc : ParsedCmd) : String :=
  pc.div.getD (pc.file ++ ".distrib")

/-- Whether a removal matches the recorded diversion: the holder is
checked only when --local or --package was supplied, the target only when
--divert was. -/
def removeOk (pc : ParsedCmd) (r : Reg) : Bool :=
  (if pc.isLocal || pc.pkg.isSome then hEff pc == r.holder else true)
  && (match pc.div with | some d => d == r.target | none => true)

/-- Whether an add finds an identical diversion already recorded. -/
def addMatch (pc : ParsedCmd) (r : Reg) : Bool :=
  r.holder == hEff pc && r.target == tEff pc

/-- Modelled from the spec: the mutate operation of the external
dpkg-divert registry tool (spec section 6), which is not part of this
repository. Exit 0 on success or no-op, non-zero on conflict (existing
diversion under a different holder or target, matching checked only for
the options actually supplied); stdout begins with Leaving or No diversion
on a no-op; with --test nothing is mutated; with --rename a file move is
performed, skipped when the destination exists (never overwrite). -/
def interpMutate (pc : ParsedCmd) (w : World) : CmdOut × World :=
  if pc.remove then
    match w.reg with
    | none => (⟨0, "No diversion", ""⟩, w)
    | some r =>
      if removeOk pc r then
        if pc.test then (⟨0, "Removing", ""⟩, w)
        else
          let w1 : World := ⟨w.fs, none⟩
          let w2 := if pc.doRename && w.isfile r.target && !(w.isfile pc.file)
                    then World.renameFile r.target pc.file w1 else w1
          (⟨0, "Removing", ""⟩, w2)
      else (⟨2, "", "dpkg-divert: mismatch"⟩, w)
  else
    match w.reg with
    | some r =>
      if addMatch pc r then
        (⟨0, "Leaving", ""⟩, w)
      else (⟨2, "", "dpkg-divert: conflict"⟩, w)
    | none =>
      if pc.test then (⟨0, "Adding", ""⟩, w)
      else
        let w1 : World := ⟨w.fs, some ⟨hEff pc, tEff pc⟩⟩
        let w2 := if pc.doRename && w.isfile pc.file && !(w.isfile (tEff pc))
                  then World.renameFile pc.file (tEff pc) w1 else w1
        (⟨0, "Adding", ""⟩, w2)

/-- The owner string the listpackage query prints: empty when no
diversion exists, else the holding package name. -/
def lpOut (w : World) : String :=
  match w.reg with | none => "" | some r => r.holder

/-- Modelled from the spec: the external dpkg-divert tool as an executor;
the listpackage query (exit 0 always, empty output when undiverted), the
truename query (the current divert target, or the path itself when
undiverted) and the mutate operation. -/
def specExec : Env := fun c w =>
  match c with
  | [] => (⟨2, "", "no command"⟩, w)
  | _ :: rest =>
      match rest with
      | [] => interpMutate (parseArgs rest pc0) w
      | a :: r2 =>
        if a = "--listpackage" then (⟨0, lpOut w, ""⟩, w)
        else if a = "--truename" then
          (⟨0, (match r2 with
                | f :: _ => (match w.reg with | none => f | some r => r.target)
                | [] => ""), ""⟩, w)
        else interpMutate (parseArgs rest pc0) w

/-! ### Normal forms of the constructed command lines -/

def stateOpts (p : Params) : List String :=
  if p.state = "absent" then ["--remove"]
  else if p.state = "present" then ["--add"] else []

def renameOpts (p : Params) : List String :=
  if p.rename then ["--rename"] else ["--no-rename"]

def divertOpts (p : Params) : List String :=
  match p.divert with
  | some d => if d = "" then [] else ["--divert", d]
  | none => []

def holderOpts (p : Params) : List String :=
  if p.holder = some "LOCAL" then ["--local"]
  else match p.holder with
       | some h => if h = "" then [] else ["--package", h]
       | none => []

theorem pyInsert_one_cons (x a : String) (l : List String) :
    pyInsert 1 x (a :: l) = a :: x :: l := rfl

theorem pyInsert_two_cons (x a b : String) (l : List String) :
    pyInsert 2 x (a :: b :: l) = a :: b :: x :: l := rfl

theorem build_eq (p : Params) :
    buildCommandline p
      = DPKG_DIVERT ::
          (holderOpts p ++ divertOpts p ++ renameOpts p ++ stateOpts p ++ [p.path]) := by
  rcases p with ⟨path, state, holder, divert, rename, force, cm⟩
  simp only [buildCommandline, holderOpts, divertOpts, renameOpts, stateOpts]
  rcases holder with _ | h
  · rcases divert with _ | d
    · cases rename <;> by_cases h1 : state = "absent" <;> by_cases h2 : state = "present" <;>
        simp_all [pyInsert_one_cons, pyInsert_two_cons]
    · by_cases h5 : d = "" <;> cases rename <;>
        by_cases h1 : state = "absent" <;> by_cases h2 : state = "present" <;>
        simp_all [pyInsert_one_cons, pyInsert_two_cons]
  · by_cases h3 : h = "LOCAL" <;> by_cases h4 : h = "" <;>
      rcases divert with _ | d
    all_goals
      try by_cases h5 : d = ""
    all_goals
      cases rename <;> by_cases h1 : state = "absent" <;> by_cases h2 : state = "present" <;>
        simp_all [pyInsert_one_cons, pyInsert_two_cons]

/-! ### Parsed forms of the commands the module builds -/

/-- A string that is not one of the option words the tool recognizes
(sane path, holder and divert values). -/
def safeStr (s : String) : Bool :=
  !(["--test", "--remove", "--add", "--rename", "--no-rename",
     "--local", "--package", "--divert"].contains s)

theorem parseArgs_nil (acc : ParsedCmd) : parseArgs [] acc = acc := rfl

theorem parseArgs_test (r : List String) (acc : ParsedCmd) :
    parseArgs ("--test" :: r) acc = parseArgs r {acc with test := true} := rfl

theorem parseArgs_remove (r : List String) (acc : ParsedCmd) :
    parseArgs ("--remove" :: r) acc = parseArgs r {acc with remove := true} := rfl

theorem parseArgs_add (r : List String) (acc : ParsedCmd) :
    parseArgs ("--add" :: r) acc = parseArgs r acc := rfl

theorem parseArgs_rename (r : List String) (acc : ParsedCmd) :
    parseArgs ("--rename" :: r) acc = parseArgs r {acc with doRename := true} := rfl

theorem parseArgs_norename (r : List String) (acc : ParsedCmd) :
    parseArgs ("--no-rename" :: r) acc = parseArgs r acc := rfl

theorem parseArgs_local (r : List String) (acc : ParsedCmd) :
    parseArgs ("--local" :: r) acc = parseArgs r {acc with isLocal := true} := rfl

theorem parseArgs_package (v : String) (r : List String) (acc : ParsedCmd) :
    parseArgs ("--package" :: v :: r) acc = parseArgs r {acc with pkg := some v} := rfl

theorem parseArgs_divert (v : String) (r : List String) (acc : ParsedCmd) :
    parseArgs ("--divert" :: v :: r) acc = parseArgs r {acc with div := some v} := rfl

theorem parseArgs_operand (x : String) (r : List String) (acc : ParsedCmd)
    (hx : safeStr x = true) :
    parseArgs (x :: r) acc = parseArgs r {acc with file := x} := by
  simp only [safeStr, List.contains_cons, List.contains_nil, Bool.not_eq_true',
    Bool.or_eq_false_iff, beq_eq_false_iff_ne, ne_eq] at hx
  obtain ⟨h1, h2, h3, h4, h5, h6, h7, h8, -⟩ := hx
  rcases r with _ | ⟨y, r⟩ <;>
    · rw [parseArgs.eq_def]
      split <;> simp_all

/-- The package option value the command carries, following the
truthiness tests of lines 189-193. -/
def pkgOf (p : Params) : Option String :=
  if p.holder = some "LOCAL" then none
  else match p.holder with
       | some h => if h = "" then none else some h
       | none => none

/-- The divert option value the command carries (line 185-187). -/
def divOf (p : Params) : Option String :=
  match p.divert with
  | some d => if d = "" then none else some d
  | none => none

/-- Parsed form of the COMMANDLINE the module builds (t is the test
flag the command was invoked with). -/
def pcOf (p : Params) (t : Bool) : ParsedCmd :=
  ⟨t, decide (p.state = "absent"), p.rename, decide (p.holder = some "LOCAL"),
    pkgOf p, divOf p, p.path⟩

/-- The holder the registry records after the add the module requests:
LOCAL when no (nonempty) holder was supplied or the LOCAL sentinel was,
otherwise the supplied holder name. -/
def effHolder (p : Params) : String :=
  if p.holder = some "LOCAL" then "LOCAL"
  else match p.holder with
       | some h => if h = "" then "LOCAL" else h
       | none => "LOCAL"

/-- The registry entry the desired (state present) diversion denotes. -/
def desiredReg (p : Params) : Reg := ⟨effHolder p, newTarget p⟩

theorem parse_tail (p : Params) (t : Bool)
    (hpath : safeStr p.path = true)
    (hvalid : p.state = "present" ∨ p.state = "absent") :
    parseArgs (holderOpts p ++ divertOpts p ++ renameOpts p ++ stateOpts p ++ [p.path])
        ⟨t, false, false, false, none, none, ""⟩
      = pcOf p t := by
  rcases p with ⟨path, state, holder, divert, rename, force, cm⟩
  simp only [holderOpts, divertOpts, renameOpts, stateOpts, pcOf, pkgOf, divOf]
  rcases hvalid with hv | hv <;> subst hv
  all_goals
    rcases holder with _ | h
  all_goals
    try by_cases h3 : (some (h : String) : Option String) = some "LOCAL"
  all_goals
    try by_cases h4 : (h : String) = ""
  all_goals
    rcases divert with _ | d
  all_goals
    try by_cases h5 : (d : String) = ""
  all_goals
    cases rename
  all_goals
    simp_all [parseArgs_nil, parseArgs_test, parseArgs_remove, parseArgs_add,
      parseArgs_rename, parseArgs_norename, parseArgs_local, parseArgs_package,
      parseArgs_divert, parseArgs_operand, decide_eq_true_eq]

/-! ### Reduction of the modelled executor on the commands the module builds -/

theorem specExec_lp (p : Params) (w : World) :
    specExec (lpCmd p) w = (⟨0, lpOut w, ""⟩, w) := rfl

theorem specExec_tn (p : Params) (w : World) :
    specExec (tnCmd p) w
      = (⟨0, (match w.reg with | none => p.path | some r => r.target), ""⟩, w) := rfl

theorem specExec_mut (d a : String) (r : List String) (w : World)
    (ha1 : a ≠ "--listpackage") (ha2 : a ≠ "--truename") :
    specExec (d :: a :: r) w = interpMutate (parseArgs (a :: r) pc0) w := by
  simp only [specExec]
  rw [if_neg ha1, if_neg ha2]

theorem interp_test_world (pc : ParsedCmd) (w : World) (ht : pc.test = true) :
    (interpMutate pc w).2 = w := by
  rcases pc with ⟨t, rm, rn, lo, pk, dv, f⟩
  subst ht
  rcases w with ⟨fs, _ | reg⟩ <;> cases rm <;> simp only [interpMutate] <;>
    (repeat' split) <;> simp_all [hEff, tEff, removeOk, addMatch]

/-- The outcome (rc, stdout, stderr) of the modelled tool does not depend
on the test flag; only the world effect does. -/
theorem interp_test_out (pc : ParsedCmd) (w : World) :
    (interpMutate {pc with test := true} w).1 = (interpMutate pc w).1 := by
  rcases pc with ⟨t, rm, rn, lo, pk, dv, f⟩
  cases t
  · rcases w with ⟨fs, _ | reg⟩ <;> cases rm <;> simp only [interpMutate] <;>
      (repeat' split) <;> simp_all [hEff, tEff, removeOk, addMatch]
  · rfl

theorem tail_head (p : Params) :
    ∃ a r, holderOpts p ++ divertOpts p ++ renameOpts p ++ stateOpts p ++ [p.path]
        = a :: r
      ∧ (a = "--local" ∨ a = "--package" ∨ a = "--divert"
          ∨ a = "--rename" ∨ a = "--no-rename") := by
  rcases p with ⟨path, state, holder, divert, rename, force, cm⟩
  simp only [holderOpts, divertOpts, renameOpts, stateOpts]
  rcases holder with _ | h
  · rcases divert with _ | d
    · cases rename <;> simp
    · by_cases h5 : d = "" <;> cases rename <;> simp [h5]
  · by_cases h3 : h = "LOCAL"
    · simp [h3]
    · by_cases h4 : h = ""
      · rcases divert with _ | d
        · cases rename <;> simp [h3, h4]
        · by_cases h5 : d = "" <;> cases rename <;> simp [h3, h4, h5]
      · simp [h3, h4]

theorem optWord_ne (a : String)
    (ha : a = "--local" ∨ a = "--package" ∨ a = "--divert"
          ∨ a = "--rename" ∨ a = "--no-rename") :
    a ≠ "--listpackage" ∧ a ≠ "--truename" := by
  rcases ha with h | h | h | h | h <;> subst h <;> exact ⟨by decide, by decide⟩

/-- The modelled tool on the built command line: it is the mutate
operation at the parsed form of the caller's parameters. -/
theorem specExec_build (p : Params) (w : World)
    (hpath : safeStr p.path = true)
    (hvalid : p.state = "present" ∨ p.state = "absent") :
    specExec (buildCommandline p) w = interpMutate (pcOf p false) w := by
  obtain ⟨a, r, hshape, ha⟩ := tail_head p
  obtain ⟨ha1, ha2⟩ := optWord_ne a ha
  rw [build_eq, hshape, specExec_mut _ _ _ _ ha1 ha2, ← hshape,
    show (pc0 : ParsedCmd) = ⟨false, false, false, false, none, none, ""⟩ from rfl,
    parse_tail p false hpath hvalid]

/-- The modelled tool on the TESTCOMMAND: same outcome as the real
command, and the world is untouched. -/
theorem specExec_testcmd (p : Params) (w : World)
    (hpath : safeStr p.path = true)
    (hvalid : p.state = "present" ∨ p.state = "absent") :
    specExec (testCommand p) w = ((interpMutate (pcOf p false) w).1, w) := by
  have hb : testCommand p
      = DPKG_DIVERT :: "--test" ::
          (holderOpts p ++ divertOpts p ++ renameOpts p ++ stateOpts p ++ [p.path]) := by
    rw [testCommand, build_eq, pyInsert_one_cons]
  have hmut : specExec (testCommand p) w
      = interpMutate (parseArgs ("--test" ::
          (holderOpts p ++ divertOpts p ++ renameOpts p ++ stateOpts p ++ [p.path])) pc0) w := by
    rw [hb]
    exact specExec_mut _ _ _ _ (by decide) (by decide)
  rw [hmut, parseArgs_test, show ({pc0 with test := true} : ParsedCmd)
      = ⟨true, false, false, false, none, none, ""⟩ from rfl,
    parse_tail p true hpath hvalid]
  have h1 : pcOf p true = {pcOf p false with test := true} := rfl
  refine Prod.ext ?_ (interp_test_world (pcOf p true) w rfl)
  rw [h1]
  exact interp_test_out (pcOf p false) w

/-- Parsed form of the FORCEREMOVE command. -/
theorem specExec_forceremove (p : Params) (w : World)
    (hpath : safeStr p.path = true) :
    specExec (forceRemoveCmd p) w
      = interpMutate ⟨p.checkMode, true, p.rename, false, none, none, p.path⟩ w := by
  rcases p with ⟨path, state, holder, divert, rename, force, cm⟩
  simp only [forceRemoveCmd]
  cases rename <;> cases cm <;>
    simp only [pyInsert_one_cons, if_true, if_false, Bool.false_eq_true, ite_false, ite_true] <;>
    rw [specExec_mut _ _ _ _ (by decide) (by decide)] <;>
    simp [parseArgs_test, parseArgs_remove, parseArgs_rename, parseArgs_norename,
      parseArgs_operand _ _ _ hpath, parseArgs_nil, pc0]

/-! ### Probe outcomes and the branch condition of line 212 -/

/-- Exit code of the test invocation (line 207), as seen by main. -/
def probeRc (env : Env) (p : Params) (w0 : World) : Nat :=
  (env (testCommand p) (env (lpCmd p) w0).2).1.rc

/-- Output of the owner query (line 206), as seen by main. -/
def probeLp (env : Env) (p : Params) (w0 : World) : String :=
  (env (lpCmd p) w0).1.out

/-- The condition of the if statement at line 212: the test invocation
exited 0, or force is off, or the owner query printed nothing. -/
def directCond (env : Env) (p : Params) (w0 : World) : Prop :=
  probeRc env p w0 = 0 ∨ p.force = false ∨ probeLp env p w0 = ""

theorem safeStr_ne (s : String) (h : safeStr s = true) :
    s ≠ "--test" ∧ s ≠ "--remove" ∧ s ≠ "--add" ∧ s ≠ "--rename" ∧ s ≠ "--no-rename"
    ∧ s ≠ "--local" ∧ s ≠ "--package" ∧ s ≠ "--divert" := by
  simp only [safeStr, List.contains_cons, List.contains_nil, Bool.not_eq_true',
    Bool.or_eq_false_iff, beq_eq_false_iff_ne, ne_eq] at h
  tauto

theorem replaceStep_site (env : Env) (p : Params) (lp tn : String) (w6 : World) :
    (replaceStep env p lp tn w6).1.exitSite = ExitSite.replaceDone
    ∨ (replaceStep env p lp tn w6).1.exitSite = ExitSite.restoreFail
    ∨ (replaceStep env p lp tn w6).1.exitSite = ExitSite.restoreReport := by
  simp only [replaceStep]
  (repeat' split) <;> simp

set_option maxHeartbeats 1000000 in
/-- C2: the direct-apply branch (one command, built exactly from the
caller's parameters, issued at line 213) is taken if and only if the test
invocation exited 0, or force is false, or the owner query returned empty
output; in every other situation the module issues the forced-removal
command. -/
theorem C2_direct_apply_iff (env : Env) (p : Params) (w0 : World) :
    (((runModule env p w0).1.exitSite = ExitSite.directFail
        ∨ (runModule env p w0).1.exitSite = ExitSite.directNoop
        ∨ (runModule env p w0).1.exitSite = ExitSite.directChanged)
      ↔ directCond env p w0)
    ∧ (¬ directCond env p w0 → Ev.cmd (forceRemoveCmd p) ∈ (runModule env p w0).2.2) := by
  by_cases hc : directCond env p w0
  · have hc' := hc
    unfold directCond probeRc probeLp at hc'
    have hsite : (runModule env p w0).1.exitSite = ExitSite.directFail
        ∨ (runModule env p w0).1.exitSite = ExitSite.directNoop
        ∨ (runModule env p w0).1.exitSite = ExitSite.directChanged := by
      simp only [runModule, hc', if_true]
      (repeat' split) <;> simp
    exact ⟨iff_of_true hsite hc, fun hn => absurd hc hn⟩
  · have hc' := hc
    unfold directCond probeRc probeLp at hc'
    constructor
    · have hsite : ¬((runModule env p w0).1.exitSite = ExitSite.directFail
          ∨ (runModule env p w0).1.exitSite = ExitSite.directNoop
          ∨ (runModule env p w0).1.exitSite = ExitSite.directChanged) := by
        simp only [runModule, hc', if_false]
        (repeat' split) <;>
          first
          | (simp only []
             done)
          | (simp
             done)
          | (rcases replaceStep_site env p
                (env (lpCmd p) w0).1.out
                (env (tnCmd p) (env (testCommand p) (env (lpCmd p) w0).2).2).1.out
                (env (forceRemoveCmd p)
                  (env (tnCmd p) (env (testCommand p) (env (lpCmd p) w0).2).2).2).2
              with h | h | h <;> simp [h])
      exact iff_of_false hsite hc
    · intro _
      simp only [runModule, hc', if_false]
      (repeat' split) <;> simp

/-- C6: when the test invocation exits non-zero and force is false, the
module issues only the single command line (whose failure, per the
registry contract, leaves the world unchanged), performs no rename, and
terminates through the check_rc failure path carrying that command's
output: a normal failed result with changed false. -/
theorem C6_reject_passthrough (env : Env) (p : Params) (w0 : World)
    (lp : String) (trc : Nat) (tout terr : String) (crc : Nat) (cout cerr : String)
    (h1 : env (lpCmd p) w0 = (⟨0, lp, ""⟩, w0))
    (h2 : env (testCommand p) w0 = (⟨trc, tout, terr⟩, w0))
    (h3 : env (commandline p) w0 = (⟨crc, cout, cerr⟩, w0))
    (htrc : trc ≠ 0) (hforce : p.force = false) (hcrc : crc ≠ 0) :
    (runModule env p w0).1
        = ⟨ExitSite.directFail, true, false, cout, cerr, [commandline p]⟩
    ∧ (runModule env p w0).2.1 = w0
    ∧ (runModule env p w0).2.2
        = [Ev.cmd (lpCmd p), Ev.cmd (testCommand p), Ev.cmd (commandline p)] := by
  simp only [runModule, h1, h2, h3, hforce]
  simp [hcrc]

/-- C7: when the test fails, force is on, a diversion exists and the
desired state is absent, the module issues exactly one command after the
probes: the forced removal, stripped of the package and divert options,
honoring only the caller's rename flag; on exit 0 it reports changed true
and failed false. -/
theorem C7_force_remove (env : Env) (p : Params) (w0 : World)
    (lp : String) (trc : Nat) (tout terr fout ferr : String) (w1 w2 w3 : World)
    (h1 : env (lpCmd p) w0 = (⟨0, lp, ""⟩, w1))
    (h2 : env (testCommand p) w1 = (⟨trc, tout, terr⟩, w2))
    (h3 : env (forceRemoveCmd p) w2 = (⟨0, fout, ferr⟩, w3))
    (htrc : trc ≠ 0) (hforce : p.force = true) (hlp : lp ≠ "")
    (hstate : p.state = "absent") (hsafe : safeStr p.path = true) :
    (runModule env p w0).1
        = ⟨ExitSite.forceRemoveDone, false, true, fout, ferr, [forceRemoveCmd p]⟩
    ∧ (runModule env p w0).2.2
        = [Ev.cmd (lpCmd p), Ev.cmd (testCommand p), Ev.cmd (forceRemoveCmd p)]
    ∧ "--package" ∉ forceRemoveCmd p
    ∧ "--divert" ∉ forceRemoveCmd p
    ∧ "--local" ∉ forceRemoveCmd p
    ∧ ("--rename" ∈ forceRemoveCmd p ↔ p.rename = true) := by
  obtain ⟨-, -, -, hp4, -, hp6, hp7, hp8⟩ := safeStr_ne p.path hsafe
  have hmem : "--package" ∉ forceRemoveCmd p ∧ "--divert" ∉ forceRemoveCmd p
      ∧ "--local" ∉ forceRemoveCmd p
      ∧ ("--rename" ∈ forceRemoveCmd p ↔ p.rename = true) := by
    have h4 : ¬("--rename" = p.path) := fun hh => hp4 hh.symm
    have h6 : ¬("--local" = p.path) := fun hh => hp6 hh.symm
    have h7 : ¬("--package" = p.path) := fun hh => hp7 hh.symm
    have h8 : ¬("--divert" = p.path) := fun hh => hp8 hh.symm
    unfold forceRemoveCmd
    rcases p with ⟨path, state, holder, divert, rename, force, cm⟩
    simp only at h4 h6 h7 h8
    cases rename <;> cases cm <;>
      simp_all [pyInsert_one_cons, pyInsert_two_cons, DPKG_DIVERT]
  refine ⟨?_, ?_, hmem.1, hmem.2.1, hmem.2.2.1, hmem.2.2.2⟩ <;>
    · simp only [runModule, h1, h2, h3, hforce, hstate]
      simp [htrc, hlp]

/-- The renames of a trace, as source-destination pairs in order. -/
def renPairs (t : List Ev) : List (String × String) :=
  t.filterMap (fun e => match e with | .ren s d _ => some (s, d) | .cmd _ => none)

set_option maxHeartbeats 1000000 in
theorem replaceStep_ren (env : Env) (p : Params) (lp tn : String) (w6 : World) :
    (∀ s d pre, Ev.ren s d pre ∈ (replaceStep env p lp tn w6).2.2 →
        pre.isfile d = false ∧ pre.isfile s = true)
    ∧ (∃ old nw,
        (renPairs (replaceStep env p lp tn w6).2.2).Sublist [(old, nw), (nw, old)]) := by
  constructor
  · intro s d pre hmem
    simp only [replaceStep] at hmem
    (repeat' split at hmem) <;> simp_all <;>
      rcases hmem with ⟨rfl, rfl, rfl⟩ | ⟨rfl, rfl, rfl⟩ <;> simp_all
  · simp only [replaceStep]
    (repeat' split) <;>
      · refine ⟨rstrip tn, newTarget p, ?_⟩
        simp only [renPairs, List.filterMap_append, List.filterMap_cons,
          List.filterMap_nil]
        first
        | exact List.nil_sublist _
        | exact List.Sublist.cons₂ _ (List.nil_sublist _)
        | exact List.Sublist.refl _
        | exact (List.Sublist.refl _).cons _

set_option maxHeartbeats 1000000 in
/-- C3: every rename the module performs has a destination that does not
exist in the world at the moment of the rename (and a source that does);
the renames of one run form a sublist of one forward and one backward
move, so at most one rename occurs in each direction; and a rename step
whose destination pre-exists leaves the world unchanged. -/
theorem C3_no_overwrite (env : Env) (p : Params) (w0 : World) :
    (∀ s d pre, Ev.ren s d pre ∈ (runModule env p w0).2.2 →
        pre.isfile d = false ∧ pre.isfile s = true)
    ∧ (∃ old nw, (renPairs (runModule env p w0).2.2).Sublist [(old, nw), (nw, old)])
    ∧ (∀ (w : World) (old nw : String), w.isfile nw = true →
        (if p.rename && w.isfile old && !(w.isfile nw)
         then World.renameFile old nw w else w) = w) := by
  refine ⟨?_, ?_, ?_⟩
  · intro s d pre hmem
    simp only [runModule] at hmem
    (repeat' split at hmem) <;> simp at hmem <;>
      exact (replaceStep_ren env p _ _ _).1 s d pre hmem
  · simp only [runModule]
    (repeat' split) <;>
      first
      | (refine ⟨"", "", ?_⟩
         simp [renPairs]
         done)
      | (obtain ⟨old, nw, hsub⟩ := (replaceStep_ren env p
            (env (lpCmd p) w0).1.out
            (env (tnCmd p) (env (testCommand p) (env (lpCmd p) w0).2).2).1.out
            (env (forceRemoveCmd p)
              (env (tnCmd p) (env (testCommand p) (env (lpCmd p) w0).2).2).2).2).2
         refine ⟨old, nw, ?_⟩
         simpa [renPairs] using hsub)
  · intro w old nw h
    simp [h]

theorem test_mem_testCommand (p : Params) : "--test" ∈ testCommand p := by
  rw [testCommand, build_eq, pyInsert_one_cons]
  simp

theorem test_mem_forceremove (p : Params) (h : p.checkMode = true) :
    "--test" ∈ forceRemoveCmd p := by
  unfold forceRemoveCmd
  rcases p with ⟨path, state, holder, divert, rename, force, cm⟩
  cases rename <;> simp_all [pyInsert_one_cons]

set_option maxHeartbeats 1000000 in
/-- C4: with check mode set, the module leaves the world untouched
(assuming, per the registry contract, that test invocations and the two
queries mutate nothing), performs no rename, and every command it issues
is the owner query, the truename query, or a command carrying --test;
in particular the ReplaceDiversion path exits before the rename and the
real add. -/
theorem C4_check_mode_purity (env : Env) (p : Params) (w0 : World)
    (hp : p.checkMode = true)
    (henv : ∀ c w, (c = lpCmd p ∨ c = tnCmd p ∨ "--test" ∈ c) → (env c w).2 = w) :
    (runModule env p w0).2.1 = w0
    ∧ ∀ e ∈ (runModule env p w0).2.2, ∃ c, e = Ev.cmd c
        ∧ (c = lpCmd p ∨ c = tnCmd p ∨ "--test" ∈ c) := by
  have htest := test_mem_testCommand p
  have hfr := test_mem_forceremove p hp
  have hcl : commandline p = testCommand p := by simp [commandline, hp]
  have hclmem : "--test" ∈ commandline p := by rw [hcl]; exact htest
  have h1 : (env (lpCmd p) w0).2 = w0 := henv _ _ (Or.inl rfl)
  have h2 : (env (testCommand p) w0).2 = w0 := henv _ _ (Or.inr (Or.inr htest))
  have h3 : (env (commandline p) w0).2 = w0 := henv _ _ (Or.inr (Or.inr hclmem))
  have h4 : (env (tnCmd p) w0).2 = w0 := henv _ _ (Or.inr (Or.inl rfl))
  have h5 : (env (forceRemoveCmd p) w0).2 = w0 := henv _ _ (Or.inr (Or.inr hfr))
  constructor
  · simp only [runModule, h1, h2, h3, h4, h5, hp]
    (repeat' split) <;> simp_all
  · simp only [runModule, h1, h2, h3, h4, h5, hp, if_true]
    (repeat' split) <;>
      first
      | (exfalso
         simp_all
         done)
      | (intro e he
         simp only [List.mem_append, List.mem_cons, List.not_mem_nil, or_false,
           false_or, or_assoc] at he
         obtain rfl | he := he
         · exact ⟨_, rfl, Or.inl rfl⟩
         obtain rfl | he := he
         · exact ⟨_, rfl, Or.inr (Or.inr htest)⟩
         first
         | (obtain rfl := he
            first
            | exact ⟨_, rfl, Or.inr (Or.inr hclmem)⟩
            | exact ⟨_, rfl, Or.inr (Or.inr hfr)⟩)
         | (obtain rfl | rfl := he
            · exact ⟨_, rfl, Or.inr (Or.inl rfl)⟩
            · exact ⟨_, rfl, Or.inr (Or.inr hfr)⟩))

set_option maxHeartbeats 1000000 in
theorem replaceStep_premove (env : Env) (p : Params) (lp tn : String) (w6 : World) :
    (Ev.ren (rstrip tn) (newTarget p) w6 ∈ (replaceStep env p lp tn w6).2.2
      ↔ (p.rename && w6.isfile (rstrip tn) && !(w6.isfile (newTarget p))) = true)
    ∧ Ev.cmd (commandline p) ∈ (replaceStep env p lp tn w6).2.2 := by
  constructor
  · simp only [replaceStep]
    (repeat' split) <;> simp_all
  · simp only [replaceStep]
    (repeat' split) <;> simp

/-- The world after the conditional pre-move of line 304-305: the old
divert file is moved to the new target exactly when rename was requested,
a file exists at the old target and none exists at the new one. -/
def preMoveWorld (p : Params) (tn : String) (w6 : World) : World :=
  if p.rename && w6.isfile (rstrip tn) && !(w6.isfile (newTarget p))
  then World.renameFile (rstrip tn) (newTarget p) w6 else w6

/-- The world after the conditional rollback move of line 312-313: the
pre-move is reversed exactly when rename was requested and the re-checked
existence facts show the pre-move happened (old target existed before and
is gone now) and reversing cannot overwrite (new target exists now and
did not before). -/
def rollbackWorld (p : Params) (tn : String) (w6 w8 : World) : World :=
  if p.rename && (w6.isfile (rstrip tn) && !(w8.isfile (rstrip tn)))
      && (w8.isfile (newTarget p) && !(w6.isfile (newTarget p)))
  then World.renameFile (newTarget p) (rstrip tn) w8 else w8

set_option maxHeartbeats 1000000 in
theorem runModule_replace (env : Env) (p : Params) (w0 : World)
    (lp tn tout terr rmout rmerr : String) (trc : Nat) (w4 : World)
    (h1 : env (lpCmd p) w0 = (⟨0, lp, ""⟩, w0))
    (h2 : env (testCommand p) w0 = (⟨trc, tout, terr⟩, w0))
    (h3 : env (tnCmd p) w0 = (⟨0, tn, ""⟩, w0))
    (h4 : env (forceRemoveCmd p) w0 = (⟨0, rmout, rmerr⟩, w4))
    (htrc : trc ≠ 0) (hforce : p.force = true) (hlp : lp ≠ "")
    (hstate : p.state = "present") (hcm : p.checkMode = false) :
    runModule env p w0
      = ((replaceStep env p lp tn w4).1, (replaceStep env p lp tn w4).2.1,
          [Ev.cmd (lpCmd p), Ev.cmd (testCommand p), Ev.cmd (tnCmd p),
            Ev.cmd (forceRemoveCmd p)] ++ (replaceStep env p lp tn w4).2.2) := by
  have hab : ¬(p.state = "absent") := by rw [hstate]; decide
  simp only [runModule, h1, h2, h3, h4]
  simp [htrc, hforce, hlp, hab, hcm]

set_option maxHeartbeats 1000000 in
/-- C5: in the ReplaceDiversion case, after the forced removal, the new
target is the caller-supplied divert path (or path plus .distrib when no
divert was supplied), the pre-move rename from the old target to the new
target is performed exactly when rename was requested, a file exists at
the old target and none at the new target, and in either case execution
continues to the add command. -/
theorem C5_premove (env : Env) (p : Params) (w0 : World)
    (lp tn tout terr rmout rmerr : String) (trc : Nat) (w4 : World)
    (h1 : env (lpCmd p) w0 = (⟨0, lp, ""⟩, w0))
    (h2 : env (testCommand p) w0 = (⟨trc, tout, terr⟩, w0))
    (h3 : env (tnCmd p) w0 = (⟨0, tn, ""⟩, w0))
    (h4 : env (forceRemoveCmd p) w0 = (⟨0, rmout, rmerr⟩, w4))
    (htrc : trc ≠ 0) (hforce : p.force = true) (hlp : lp ≠ "")
    (hstate : p.state = "present") (hcm : p.checkMode = false) :
    ((∀ d, p.divert = some d → d ≠ "" → newTarget p = d)
      ∧ (p.divert = none → newTarget p = p.path ++ ".distrib"))
    ∧ (Ev.ren (rstrip tn) (newTarget p) w4 ∈ (runModule env p w0).2.2
        ↔ (p.rename && w4.isfile (rstrip tn) && !(w4.isfile (newTarget p))) = true)
    ∧ Ev.cmd (commandline p) ∈ (runModule env p w0).2.2 := by
  refine ⟨⟨?_, ?_⟩, ?_, ?_⟩
  · intro d hd hne
    simp [newTarget, hd, hne]
  · intro hd
    simp [newTarget, hd]
  · rw [runModule_replace env p w0 lp tn tout terr rmout rmerr trc w4
      h1 h2 h3 h4 htrc hforce hlp hstate hcm]
    simp only [List.mem_append, List.mem_cons, List.not_mem_nil, or_false, false_or]
    have hx : ¬(Ev.ren (rstrip tn) (newTarget p) w4 = Ev.cmd (lpCmd p)
        ∨ Ev.ren (rstrip tn) (newTarget p) w4 = Ev.cmd (testCommand p)
        ∨ Ev.ren (rstrip tn) (newTarget p) w4 = Ev.cmd (tnCmd p)
        ∨ Ev.ren (rstrip tn) (newTarget p) w4 = Ev.cmd (forceRemoveCmd p)) := by simp
    constructor
    · intro hmem
      rcases hmem with h | h
      · exact absurd h hx
      · exact (replaceStep_premove env p lp tn w4).1.mp h
    · intro hcond
      exact Or.inr ((replaceStep_premove env p lp tn w4).1.mpr hcond)
  · rw [runModule_replace env p w0 lp tn tout terr rmout rmerr trc w4
      h1 h2 h3 h4 htrc hforce hlp hstate hcm]
    simp only [List.mem_append, List.mem_cons, List.not_mem_nil, or_false, false_or]
    exact Or.inr (replaceStep_premove env p lp tn w4).2

set_option maxHeartbeats 1000000 in
theorem replaceStep_fail (env : Env) (p : Params) (lp tn : String) (w6 : World)
    (arc rrc : Nat) (aout aerr rout rerr : String) (w8 w10 : World)
    (h5 : env (commandline p) (preMoveWorld p tn w6) = (⟨arc, aout, aerr⟩, w8))
    (h6 : env (restoreCmd p (rstrip tn) (rstrip lp)) (rollbackWorld p tn w6 w8)
        = (⟨rrc, rout, rerr⟩, w10))
    (harc : arc ≠ 0) :
    (rrc ≠ 0 → (replaceStep env p lp tn w6).1
        = ⟨.restoreFail, true, false, rout, rerr,
            [restoreCmd p (rstrip tn) (rstrip lp)]⟩)
    ∧ (rrc = 0 → (replaceStep env p lp tn w6).1
        = ⟨.restoreReport, true, true, aout, aerr,
            [forceRemoveCmd p, commandline p]⟩)
    ∧ (Ev.ren (newTarget p) (rstrip tn) w8 ∈ (replaceStep env p lp tn w6).2.2
        ↔ (p.rename && (w6.isfile (rstrip tn) && !(w8.isfile (rstrip tn)))
            && (w8.isfile (newTarget p) && !(w6.isfile (newTarget p)))) = true)
    ∧ Ev.cmd (restoreCmd p (rstrip tn) (rstrip lp)) ∈ (replaceStep env p lp tn w6).2.2 := by
  have key : replaceStep env p lp tn w6
      = ((if rrc ≠ 0 then
            (⟨.restoreFail, true, false, rout, rerr,
              [restoreCmd p (rstrip tn) (rstrip lp)]⟩ : Result)
          else ⟨.restoreReport, true, true, aout, aerr,
              [forceRemoveCmd p, commandline p]⟩),
        w10,
        ((if p.rename && w6.isfile (rstrip tn) && !(w6.isfile (newTarget p))
          then [Ev.ren (rstrip tn) (newTarget p) w6] else [])
          ++ [Ev.cmd (commandline p)]
          ++ (if p.rename && (w6.isfile (rstrip tn) && !(w8.isfile (rstrip tn)))
                && (w8.isfile (newTarget p) && !(w6.isfile (newTarget p)))
              then [Ev.ren (newTarget p) (rstrip tn) w8] else [])
          ++ [Ev.cmd (restoreCmd p (rstrip tn) (rstrip lp))])) := by
    simp only [replaceStep, preMoveWorld, rollbackWorld] at h5 h6 ⊢
    simp only [h5, h6]
    simp only [harc, if_false, ite_false]
    (repeat' split) <;> simp_all
  refine ⟨?_, ?_, ?_, ?_⟩
  · intro hr
    rw [key]
    simp [hr]
  · intro hr
    rw [key]
    simp [hr]
  · rw [key]
    constructor
    · intro hmem
      simp only [List.mem_append, List.mem_cons, List.mem_singleton,
        List.not_mem_nil, or_false] at hmem
      (repeat' split at hmem) <;>
        first
        | simp_all
        | (rename_i hpre hroll
           simp at hmem
           obtain ⟨e1, e2, e3⟩ := hmem
           rw [e1] at hpre
           simp only [Bool.and_eq_true, Bool.not_eq_true'] at hpre
           obtain ⟨⟨-, hA⟩, hB⟩ := hpre
           rw [hA] at hB
           exact absurd hB (by decide))
    · intro hcond
      simp [hcond]
  · rw [key]
    simp

set_option maxHeartbeats 1000000 in
/-- C10: in the ReplaceDiversion failure path, when the restoration
command itself exits non-zero the module terminates through that
command's check_rc failure handling, carrying the restore command's
output, so the final report (failed true, changed true, the failed add's
output and the forced-remove and add command pair) is never emitted; the
original add's output reaches the caller exactly when the restoration
command exits 0. -/
theorem C10_restore_check_rc (env : Env) (p : Params) (w0 : World)
    (lp tn tout terr rmout rmerr aout aerr rout rerr : String)
    (trc arc rrc : Nat) (w4 w8 w10 : World)
    (h1 : env (lpCmd p) w0 = (⟨0, lp, ""⟩, w0))
    (h2 : env (testCommand p) w0 = (⟨trc, tout, terr⟩, w0))
    (h3 : env (tnCmd p) w0 = (⟨0, tn, ""⟩, w0))
    (h4 : env (forceRemoveCmd p) w0 = (⟨0, rmout, rmerr⟩, w4))
    (h5 : env (commandline p) (preMoveWorld p tn w4) = (⟨arc, aout, aerr⟩, w8))
    (h6 : env (restoreCmd p (rstrip tn) (rstrip lp)) (rollbackWorld p tn w4 w8)
        = (⟨rrc, rout, rerr⟩, w10))
    (htrc : trc ≠ 0) (hforce : p.force = true) (hlp : lp ≠ "")
    (hstate : p.state = "present") (hcm : p.checkMode = false) (harc : arc ≠ 0) :
    (rrc ≠ 0 → (runModule env p w0).1
        = ⟨.restoreFail, true, false, rout, rerr,
            [restoreCmd p (rstrip tn) (rstrip lp)]⟩)
    ∧ (rrc = 0 → (runModule env p w0).1
        = ⟨.restoreReport, true, true, aout, aerr,
            [forceRemoveCmd p, commandline p]⟩) := by
  rw [runModule_replace env p w0 lp tn tout terr rmout rmerr trc w4
    h1 h2 h3 h4 htrc hforce hlp hstate hcm]
  obtain ⟨ha, hb, -, -⟩ := replaceStep_fail env p lp tn w4 arc rrc
    aout aerr rout rerr w8 w10 h5 h6 harc
  exact ⟨ha, hb⟩

set_option maxHeartbeats 1000000 in
/-- C1 (amended): in the ReplaceDiversion failure path the module
reverses the pre-move rename exactly when the re-checked existence facts
show the pre-move happened and the reversal would not overwrite an
existing file; it then issues the restore command built from the recorded
old target and old holder; when that restoration command succeeds the
module reports failed true and changed true; when the restoration command
itself fails the module instead terminates through that command's failure
handling, without the changed-true report. -/
theorem C1_rollback_amended (env : Env) (p : Params) (w0 : World)
    (lp tn tout terr rmout rmerr aout aerr rout rerr : String)
    (trc arc rrc : Nat) (w4 w8 w10 : World)
    (h1 : env (lpCmd p) w0 = (⟨0, lp, ""⟩, w0))
    (h2 : env (testCommand p) w0 = (⟨trc, tout, terr⟩, w0))
    (h3 : env (tnCmd p) w0 = (⟨0, tn, ""⟩, w0))
    (h4 : env (forceRemoveCmd p) w0 = (⟨0, rmout, rmerr⟩, w4))
    (h5 : env (commandline p) (preMoveWorld p tn w4) = (⟨arc, aout, aerr⟩, w8))
    (h6 : env (restoreCmd p (rstrip tn) (rstrip lp)) (rollbackWorld p tn w4 w8)
        = (⟨rrc, rout, rerr⟩, w10))
    (htrc : trc ≠ 0) (hforce : p.force = true) (hlp : lp ≠ "")
    (hstate : p.state = "present") (hcm : p.checkMode = false) (harc : arc ≠ 0) :
    (Ev.ren (newTarget p) (rstrip tn) w8 ∈ (runModule env p w0).2.2
      ↔ (p.rename && (w4.isfile (rstrip tn) && !(w8.isfile (rstrip tn)))
          && (w8.isfile (newTarget p) && !(w4.isfile (newTarget p)))) = true)
    ∧ Ev.cmd (restoreCmd p (rstrip tn) (rstrip lp)) ∈ (runModule env p w0).2.2
    ∧ (rrc = 0 → (runModule env p w0).1.failed = true
        ∧ (runModule env p w0).1.changed = true) := by
  rw [runModule_replace env p w0 lp tn tout terr rmout rmerr trc w4
    h1 h2 h3 h4 htrc hforce hlp hstate hcm]
  obtain ⟨-, hb, hc, hd⟩ := replaceStep_fail env p lp tn w4 arc rrc
    aout aerr rout rerr w8 w10 h5 h6 harc
  refine ⟨?_, ?_, ?_⟩
  · simp only [List.mem_append, List.mem_cons, List.not_mem_nil, or_false, false_or]
    have hx : ¬(Ev.ren (newTarget p) (rstrip tn) w8 = Ev.cmd (lpCmd p)
        ∨ Ev.ren (newTarget p) (rstrip tn) w8 = Ev.cmd (testCommand p)
        ∨ Ev.ren (newTarget p) (rstrip tn) w8 = Ev.cmd (tnCmd p)
        ∨ Ev.ren (newTarget p) (rstrip tn) w8 = Ev.cmd (forceRemoveCmd p)) := by simp
    constructor
    · intro hmem
      rcases hmem with h | h
      · exact absurd h hx
      · exact hc.mp h
    · intro hcond
      exact Or.inr (hc.mpr hcond)
  · simp only [List.mem_append, List.mem_cons, List.not_mem_nil, or_false, false_or]
    exact Or.inr hd
  · intro hr
    rw [hb hr]
    exact ⟨rfl, rfl⟩

/-! ### Whole-run properties under the modelled registry tool -/

/-- The registry entry the desired end state denotes: no entry for state
absent, the desired holder and target for state present. -/
def desiredOf (p : Params) : Option Reg :=
  if p.state = "absent" then none else some (desiredReg p)

theorem hEff_pcOf (p : Params) (t : Bool) : hEff (pcOf p t) = effHolder p := by
  rcases p with ⟨path, state, holder, divert, rename, force, cm⟩
  simp only [hEff, pcOf, pkgOf, effHolder]
  rcases holder with _ | h
  · simp
  · by_cases h3 : h = "LOCAL" <;> by_cases h4 : h = "" <;> simp_all

theorem tEff_pcOf (p : Params) (t : Bool) : tEff (pcOf p t) = newTarget p := by
  rcases p with ⟨path, state, holder, divert, rename, force, cm⟩
  simp only [tEff, pcOf, divOf, newTarget]
  rcases divert with _ | d
  · simp
  · by_cases h5 : d = "" <;> simp_all

theorem addMatch_iff (pc : ParsedCmd) (r : Reg) :
    addMatch pc r = true ↔ r = ⟨hEff pc, tEff pc⟩ := by
  rcases r with ⟨rh, rt⟩
  simp [addMatch, Reg.mk.injEq, Bool.and_eq_true, beq_iff_eq]

theorem interp_remove_none (pc : ParsedCmd) (w : World)
    (hrm : pc.remove = true) (hreg : w.reg = none) :
    interpMutate pc w = (⟨0, "No diversion", ""⟩, w) := by
  rcases w with ⟨fs, reg⟩
  simp only at hreg
  subst hreg
  simp [interpMutate, hrm]

theorem interp_remove_some (pc : ParsedCmd) (w : World) (r : Reg)
    (hrm : pc.remove = true) (ht : pc.test = false) (hreg : w.reg = some r) :
    (removeOk pc r = true →
      (interpMutate pc w).1 = ⟨0, "Removing", ""⟩ ∧ (interpMutate pc w).2.reg = none)
    ∧ (removeOk pc r = false → interpMutate pc w = (⟨2, "", "dpkg-divert: mismatch"⟩, w)) := by
  rcases w with ⟨fs, reg⟩
  simp only at hreg
  subst hreg
  constructor
  · intro hok
    simp only [interpMutate, hrm, hok, ht, if_true, ite_true, if_false, ite_false]
    constructor
    · simp
    · (repeat' split) <;> simp_all [World.renameFile]
  · intro hbad
    simp [interpMutate, hrm, hbad, ht]

theorem interp_add_none (pc : ParsedCmd) (w : World)
    (hrm : pc.remove = false) (ht : pc.test = false) (hreg : w.reg = none) :
    (interpMutate pc w).1 = ⟨0, "Adding", ""⟩
    ∧ (interpMutate pc w).2.reg = some ⟨hEff pc, tEff pc⟩ := by
  rcases w with ⟨fs, reg⟩
  simp only at hreg
  subst hreg
  simp only [interpMutate, hrm, ht, Bool.false_eq_true, if_false, ite_false]
  constructor
  · simp
  · split <;> simp [World.renameFile]

theorem interp_add_some (pc : ParsedCmd) (w : World) (r : Reg)
    (hrm : pc.remove = false) (hreg : w.reg = some r) :
    (addMatch pc r = true → interpMutate pc w = (⟨0, "Leaving", ""⟩, w))
    ∧ (addMatch pc r = false → interpMutate pc w = (⟨2, "", "dpkg-divert: conflict"⟩, w)) := by
  rcases w with ⟨fs, reg⟩
  simp only at hreg
  subst hreg
  constructor
  · intro hm
    simp [interpMutate, hrm, hm]
  · intro hm
    simp [interpMutate, hrm, hm]

/-- The FORCEREMOVE command matches any recorded diversion (no package,
no local, no divert option). -/
theorem removeOk_fr (cm rn : Bool) (path : String) (r : Reg) :
    removeOk ⟨cm, true, rn, false, none, none, path⟩ r = true := by
  simp [removeOk]

set_option maxHeartbeats 1000000 in
theorem spec_run_direct (p : Params) (w : World)
    (hpath : safeStr p.path = true)
    (hvalid : p.state = "present" ∨ p.state = "absent")
    (hcond : (interpMutate (pcOf p false) w).1.rc = 0 ∨ p.force = false ∨ lpOut w = "") :
    runModule specExec p w
      = ((if (interpMutate (pcOf p false) w).1.rc ≠ 0 then
            (⟨.directFail, true, false, (interpMutate (pcOf p false) w).1.out,
              (interpMutate (pcOf p false) w).1.err, [commandline p]⟩ : Result)
          else if noopMatch (interpMutate (pcOf p false) w).1.out then
            ⟨.directNoop, false, false, (interpMutate (pcOf p false) w).1.out,
              (interpMutate (pcOf p false) w).1.err, [commandline p]⟩
          else
            ⟨.directChanged, false, true, (interpMutate (pcOf p false) w).1.out,
              (interpMutate (pcOf p false) w).1.err, [commandline p]⟩),
        (specExec (commandline p) w).2,
        [Ev.cmd (lpCmd p), Ev.cmd (testCommand p), Ev.cmd (commandline p)]) := by
  have hq3 : (specExec (commandline p) w).1 = (interpMutate (pcOf p false) w).1 := by
    by_cases hb : p.checkMode = true
    · rw [show commandline p = testCommand p from by simp [commandline, hb],
        specExec_testcmd p w hpath hvalid]
    · rw [show commandline p = buildCommandline p from by simp [commandline, hb],
        specExec_build p w hpath hvalid]
  simp only [runModule, specExec_lp, specExec_testcmd p w hpath hvalid]
  rw [if_pos hcond]
  rw [show (specExec (commandline p) w)
      = ((interpMutate (pcOf p false) w).1, (specExec (commandline p) w).2)
      from Prod.ext hq3 rfl]
  (repeat' split) <;> simp

set_option maxHeartbeats 1000000 in
theorem spec_run_fr (p : Params) (w : World)
    (hpath : safeStr p.path = true)
    (hvalid : p.state = "present" ∨ p.state = "absent")
    (hcond : ¬((interpMutate (pcOf p false) w).1.rc = 0 ∨ p.force = false ∨ lpOut w = ""))
    (hs : p.state = "absent") :
    runModule specExec p w
      = ((if (interpMutate ⟨p.checkMode, true, p.rename, false, none, none, p.path⟩ w).1.rc ≠ 0
          then
            (⟨.forceRemoveFail, true, false,
              (interpMutate ⟨p.checkMode, true, p.rename, false, none, none, p.path⟩ w).1.out,
              (interpMutate ⟨p.checkMode, true, p.rename, false, none, none, p.path⟩ w).1.err,
              [forceRemoveCmd p]⟩ : Result)
          else
            ⟨.forceRemoveDone, false, true,
              (interpMutate ⟨p.checkMode, true, p.rename, false, none, none, p.path⟩ w).1.out,
              (interpMutate ⟨p.checkMode, true, p.rename, false, none, none, p.path⟩ w).1.err,
              [forceRemoveCmd p]⟩),
        (interpMutate ⟨p.checkMode, true, p.rename, false, none, none, p.path⟩ w).2,
        [Ev.cmd (lpCmd p), Ev.cmd (testCommand p), Ev.cmd (forceRemoveCmd p)]) := by
  simp only [runModule, specExec_lp, specExec_testcmd p w hpath hvalid]
  rw [if_neg hcond, if_pos hs, specExec_forceremove p w hpath]
  (repeat' split) <;> simp

set_option maxHeartbeats 1000000 in
theorem spec_run_replace (p : Params) (w : World)
    (hpath : safeStr p.path = true)
    (hvalid : p.state = "present" ∨ p.state = "absent")
    (hcm : p.checkMode = false)
    (hcond : ¬((interpMutate (pcOf p false) w).1.rc = 0 ∨ p.force = false ∨ lpOut w = ""))
    (hs : ¬(p.state = "absent")) :
    runModule specExec p w
      = ((replaceStep specExec p (lpOut w)
            (match w.reg with | none => p.path | some r => r.target)
            (interpMutate ⟨false, true, p.rename, false, none, none, p.path⟩ w).2).1,
         (replaceStep specExec p (lpOut w)
            (match w.reg with | none => p.path | some r => r.target)
            (interpMutate ⟨false, true, p.rename, false, none, none, p.path⟩ w).2).2.1,
         [Ev.cmd (lpCmd p), Ev.cmd (testCommand p), Ev.cmd (tnCmd p),
           Ev.cmd (forceRemoveCmd p)]
           ++ (replaceStep specExec p (lpOut w)
                (match w.reg with | none => p.path | some r => r.target)
                (interpMutate ⟨false, true, p.rename, false, none, none, p.path⟩ w).2).2.2) := by
  have hfr0 : (interpMutate ⟨false, true, p.rename, false, none, none, p.path⟩ w).1.rc = 0 := by
    rcases hreg : w.reg with _ | r
    · rw [interp_remove_none _ _ rfl hreg]
    · rw [((interp_remove_some _ _ r rfl rfl hreg).1 (removeOk_fr _ _ _ _)).1]
  simp only [runModule, specExec_lp, specExec_testcmd p w hpath hvalid, specExec_tn]
  rw [if_neg hcond, if_neg hs, specExec_forceremove p w hpath, hcm]
  simp only [hfr0, hcm]
  simp

set_option maxHeartbeats 1000000 in
theorem spec_replaceStep (p : Params) (lp tn : String) (w6 : World)
    (hpath : safeStr p.path = true)
    (hvalid : p.state = "present" ∨ p.state = "absent")
    (hcm : p.checkMode = false)
    (hs : p.state = "present")
    (hreg6 : w6.reg = none) :
    (replaceStep specExec p lp tn w6).1
        = ⟨.replaceDone, false, true, "Adding", "", [forceRemoveCmd p, commandline p]⟩
    ∧ (replaceStep specExec p lp tn w6).2.1.reg = some ⟨effHolder p, newTarget p⟩ := by
  have hcl : commandline p = buildCommandline p := by simp [commandline, hcm]
  have hrm : (pcOf p false).remove = false := by simp [pcOf, hs]
  simp only [replaceStep]
  have hw7 : ∀ b : Bool,
      ((if b then World.renameFile (rstrip tn) (newTarget p) w6 else w6) : World).reg
        = none := by
    intro b
    cases b <;> simp [World.renameFile, hreg6]
  set w7 := if p.rename && w6.isfile (rstrip tn) && !(w6.isfile (newTarget p))
      then World.renameFile (rstrip tn) (newTarget p) w6 else w6 with hw7def
  have hq7 : specExec (commandline p) w7 = interpMutate (pcOf p false) w7 := by
    rw [hcl, specExec_build p w7 hpath hvalid]
  have hadd := interp_add_none (pcOf p false) w7 hrm rfl (by rw [hw7def]; exact hw7 _)
  constructor
  · simp only [hq7]
    rw [show interpMutate (pcOf p false) w7
        = (⟨0, "Adding", ""⟩, (interpMutate (pcOf p false) w7).2)
        from Prod.ext hadd.1 rfl]
    simp
  · simp only [hq7]
    rw [show interpMutate (pcOf p false) w7
        = (⟨0, "Adding", ""⟩, (interpMutate (pcOf p false) w7).2)
        from Prod.ext hadd.1 rfl]
    simp only [ite_true, if_true]
    rw [show (interpMutate (pcOf p false) w7).2.reg = some ⟨hEff (pcOf p false), tEff (pcOf p false)⟩
        from hadd.2, hEff_pcOf, tEff_pcOf]

set_option maxHeartbeats 1000000 in
theorem spec_Mreg (p : Params) (w : World)
    (hvalid : p.state = "present" ∨ p.state = "absent")
    (h0 : (interpMutate (pcOf p false) w).1.rc = 0) :
    (interpMutate (pcOf p false) w).2.reg = desiredOf p := by
  rcases hvalid with hs | hs
  · have hrm : (pcOf p false).remove = false := by simp [pcOf, hs]
    rcases hreg : w.reg with _ | r
    · rw [(interp_add_none (pcOf p false) w hrm rfl hreg).2, hEff_pcOf, tEff_pcOf]
      simp [desiredOf, hs, desiredReg]
    · by_cases hm : addMatch (pcOf p false) r = true
      · rw [(interp_add_some (pcOf p false) w r hrm hreg).1 hm]
        simp only []
        rw [hreg, (addMatch_iff _ _).mp hm, hEff_pcOf, tEff_pcOf]
        simp [desiredOf, hs, desiredReg]
      · rw [(interp_add_some (pcOf p false) w r hrm hreg).2 (by simpa using hm)] at h0
        simp at h0
  · have hrm : (pcOf p false).remove = true := by simp [pcOf, hs]
    rcases hreg : w.reg with _ | r
    · rw [interp_remove_none _ _ hrm hreg]
      simp [desiredOf, hs, hreg]
    · by_cases hok : removeOk (pcOf p false) r = true
      · rw [((interp_remove_some _ _ r hrm rfl hreg).1 hok).2]
        simp [desiredOf, hs]
      · rw [(interp_remove_some _ _ r hrm rfl hreg).2 (by simpa using hok)] at h0
        simp at h0

set_option maxHeartbeats 1000000 in
theorem spec_success_reg (p : Params) (w : World)
    (hpath : safeStr p.path = true)
    (hvalid : p.state = "present" ∨ p.state = "absent")
    (hcm : p.checkMode = false)
    (hok : (runModule specExec p w).1.failed = false) :
    (runModule specExec p w).2.1.reg = desiredOf p := by
  by_cases hcond : ((interpMutate (pcOf p false) w).1.rc = 0
      ∨ p.force = false ∨ lpOut w = "")
  · rw [spec_run_direct p w hpath hvalid hcond] at hok ⊢
    by_cases h0 : (interpMutate (pcOf p false) w).1.rc ≠ 0
    · simp [h0] at hok
    · push_neg at h0
      have hcl : commandline p = buildCommandline p := by simp [commandline, hcm]
      have hwe : (specExec (commandline p) w).2 = (interpMutate (pcOf p false) w).2 := by
        rw [hcl, specExec_build p w hpath hvalid]
      simp only [hwe]
      exact spec_Mreg p w hvalid h0
  · by_cases habs : p.state = "absent"
    · rw [spec_run_fr p w hpath hvalid hcond habs] at hok ⊢
      by_cases h40 : (interpMutate
          ⟨p.checkMode, true, p.rename, false, none, none, p.path⟩ w).1.rc ≠ 0
      · simp [h40] at hok
      · have hregn : (interpMutate
            ⟨p.checkMode, true, p.rename, false, none, none, p.path⟩ w).2.reg = none := by
          rcases hreg : w.reg with _ | r
          · rw [interp_remove_none _ _ rfl hreg]
            exact hreg
          · exact ((interp_remove_some _ _ r rfl hcm hreg).1 (removeOk_fr _ _ _ _)).2
        simp only []
        rw [hregn]
        simp [desiredOf, habs]
    · have hs' : p.state = "present" := by
        rcases hvalid with h | h
        · exact h
        · exact absurd h habs
      rw [spec_run_replace p w hpath hvalid hcm hcond habs]
      have hregn : (interpMutate
          ⟨false, true, p.rename, false, none, none, p.path⟩ w).2.reg = none := by
        rcases hreg : w.reg with _ | r
        · rw [interp_remove_none _ _ rfl hreg]
          exact hreg
        · exact ((interp_remove_some _ _ r rfl rfl hreg).1 (removeOk_fr _ _ _ _)).2
      have hrs := spec_replaceStep p (lpOut w)
        (match w.reg with | none => p.path | some r => r.target)
        _ hpath hvalid hcm hs' hregn
      simp only []
      rw [hrs.2]
      simp [desiredOf, hs', desiredReg]

set_option maxHeartbeats 1000000 in
theorem spec_first_changed (p : Params) (w : World)
    (hpath : safeStr p.path = true)
    (hvalid : p.state = "present" ∨ p.state = "absent")
    (hcm : p.checkMode = false)
    (hok : (runModule specExec p w).1.failed = false)
    (hnd : w.reg ≠ desiredOf p) :
    (runModule specExec p w).1.changed = true := by
  by_cases hcond : ((interpMutate (pcOf p false) w).1.rc = 0
      ∨ p.force = false ∨ lpOut w = "")
  · rw [spec_run_direct p w hpath hvalid hcond] at hok ⊢
    by_cases h0 : (interpMutate (pcOf p false) w).1.rc ≠ 0
    · simp [h0] at hok
    · push_neg at h0
      have hout : noopMatch (interpMutate (pcOf p false) w).1.out = false := by
        rcases hvalid with hs | hs
        · have hrm : (pcOf p false).remove = false := by simp [pcOf, hs]
          rcases hreg : w.reg with _ | r
          · rw [(interp_add_none (pcOf p false) w hrm rfl hreg).1]
            decide
          · by_cases hm : addMatch (pcOf p false) r = true
            · exfalso
              apply hnd
              rw [hreg, (addMatch_iff _ _).mp hm, hEff_pcOf, tEff_pcOf]
              simp [desiredOf, hs, desiredReg]
            · rw [(interp_add_some (pcOf p false) w r hrm hreg).2 (by simpa using hm)] at h0
              simp at h0
        · have hrm : (pcOf p false).remove = true := by simp [pcOf, hs]
          rcases hreg : w.reg with _ | r
          · exfalso
            apply hnd
            rw [hreg]
            simp [desiredOf, hs]
          · by_cases hokk : removeOk (pcOf p false) r = true
            · rw [((interp_remove_some _ _ r hrm rfl hreg).1 hokk).1]
              decide
            · rw [(interp_remove_some _ _ r hrm rfl hreg).2 (by simpa using hokk)] at h0
              simp at h0
      simp [h0, hout]
  · by_cases habs : p.state = "absent"
    · rw [spec_run_fr p w hpath hvalid hcond habs] at hok ⊢
      by_cases h40 : (interpMutate
          ⟨p.checkMode, true, p.rename, false, none, none, p.path⟩ w).1.rc ≠ 0
      · simp [h40] at hok
      · simp [h40]
    · have hs' : p.state = "present" := by
        rcases hvalid with h | h
        · exact h
        · exact absurd h habs
      rw [spec_run_replace p w hpath hvalid hcm hcond habs]
      have hregn : (interpMutate
          ⟨false, true, p.rename, false, none, none, p.path⟩ w).2.reg = none := by
        rcases hreg : w.reg with _ | r
        · rw [interp_remove_none _ _ rfl hreg]
          exact hreg
        · exact ((interp_remove_some _ _ r rfl rfl hreg).1 (removeOk_fr _ _ _ _)).2
      have hrs := spec_replaceStep p (lpOut w)
        (match w.reg with | none => p.path | some r => r.target)
        _ hpath hvalid hcm hs' hregn
      simp only []
      rw [hrs.1]

set_option maxHeartbeats 1000000 in
theorem spec_on_desired (p : Params) (w : World)
    (hpath : safeStr p.path = true)
    (hvalid : p.state = "present" ∨ p.state = "absent")
    (hreg : w.reg = desiredOf p) :
    (runModule specExec p w).1.exitSite = ExitSite.directNoop
    ∧ (runModule specExec p w).1.changed = false
    ∧ (runModule specExec p w).1.failed = false
    ∧ noopMatch (runModule specExec p w).1.stdout = true := by
  have hM : (interpMutate (pcOf p false) w).1 = ⟨0, "No diversion", ""⟩
      ∨ (interpMutate (pcOf p false) w).1 = ⟨0, "Leaving", ""⟩ := by
    rcases hvalid with hs | hs
    · right
      have hrm : (pcOf p false).remove = false := by simp [pcOf, hs]
      have hregs : w.reg = some (desiredReg p) := by
        rw [hreg]
        simp [desiredOf, hs]
      have hm : addMatch (pcOf p false) (desiredReg p) = true := by
        rw [addMatch_iff, hEff_pcOf, tEff_pcOf]
        rfl
      rw [(interp_add_some _ _ _ hrm hregs).1 hm]
    · left
      have hrm : (pcOf p false).remove = true := by simp [pcOf, hs]
      have hregs : w.reg = none := by
        rw [hreg]
        simp [desiredOf, hs]
      rw [interp_remove_none _ _ hrm hregs]
  have h0 : (interpMutate (pcOf p false) w).1.rc = 0 := by
    rcases hM with h | h <;> rw [h]
  have hno : noopMatch (interpMutate (pcOf p false) w).1.out = true := by
    rcases hM with h | h <;> rw [h] <;> decide
  rw [spec_run_direct p w hpath hvalid (Or.inl h0)]
  simp [h0, hno]

set_option maxHeartbeats 1000000 in
/-- C8: under the modelled registry tool, a successful real run from a
state that is not already the desired one reports changed true and leaves
the registry in the desired state, and running the same parameters again
reports changed false and not failed: the second run's mutating command
exits 0 with a stdout beginning with a recognized no-op marker, which is
exactly what makes the module report changed false. -/
theorem C8_idempotence (p : Params) (w : World)
    (hpath : safeStr p.path = true)
    (hvalid : p.state = "present" ∨ p.state = "absent")
    (hcm : p.checkMode = false)
    (hnd : w.reg ≠ desiredOf p)
    (hok : (runModule specExec p w).1.failed = false) :
    (runModule specExec p w).1.changed = true
    ∧ (runModule specExec p (runModule specExec p w).2.1).1.changed = false
    ∧ (runModule specExec p (runModule specExec p w).2.1).1.failed = false
    ∧ (runModule specExec p (runModule specExec p w).2.1).1.exitSite = ExitSite.directNoop
    ∧ noopMatch (runModule specExec p (runModule specExec p w).2.1).1.stdout = true := by
  have h2 := spec_on_desired p (runModule specExec p w).2.1 hpath hvalid
    (spec_success_reg p w hpath hvalid hcm hok)
  exact ⟨spec_first_changed p w hpath hvalid hcm hok hnd,
    h2.2.1, h2.2.2.1, h2.1, h2.2.2.2⟩

/-- Set the check-mode flag of a parameter record. -/
def setCheck (p : Params) (b : Bool) : Params := {p with checkMode := b}

set_option maxHeartbeats 1000000 in
/-- C9: under the modelled registry tool, for every starting state that
leads to one of the single-step cases (direct apply, reject,
spurious-conflict direct apply, or force remove), a check-mode run reports
the same changed flag as the real run from the identical state. -/
theorem C9_check_parity (p : Params) (w : World)
    (hpath : safeStr p.path = true)
    (hvalid : p.state = "present" ∨ p.state = "absent")
    (hcase : ((interpMutate (pcOf p false) w).1.rc = 0
        ∨ p.force = false ∨ lpOut w = "") ∨ p.state = "absent") :
    (runModule specExec (setCheck p true) w).1.changed
      = (runModule specExec (setCheck p false) w).1.changed := by
  have e1 : pcOf (setCheck p true) false = pcOf p false := rfl
  have e2 : pcOf (setCheck p false) false = pcOf p false := rfl
  by_cases hcond : ((interpMutate (pcOf p false) w).1.rc = 0
      ∨ p.force = false ∨ lpOut w = "")
  · rw [spec_run_direct (setCheck p true) w hpath hvalid (by exact hcond),
      spec_run_direct (setCheck p false) w hpath hvalid (by exact hcond)]
    simp only [e1, e2]
    (repeat' split) <;> simp_all
  · have habs : p.state = "absent" := by
      rcases hcase with h | h
      · exact absurd h hcond
      · exact h
    rw [spec_run_fr (setCheck p true) w hpath hvalid (by exact hcond) habs,
      spec_run_fr (setCheck p false) w hpath hvalid (by exact hcond) habs]
    have e3 : (interpMutate ⟨(setCheck p true).checkMode, true, (setCheck p true).rename,
        false, none, none, (setCheck p true).path⟩ w).1
        = (interpMutate ⟨(setCheck p false).checkMode, true, (setCheck p false).rename,
            false, none, none, (setCheck p false).path⟩ w).1 := by
      exact interp_test_out ⟨false, true, p.rename, false, none, none, p.path⟩ w
    simp only [e3]
    (repeat' split) <;> simp_all

/-! ### Concrete scenarios -/

/-- Replace scenario: diversion of /etc/screenrc held by branding at
.distrib, re-diverted to holder other at .ansible with rename and force. -/
def scrP : Params :=
  ⟨"/etc/screenrc", "present", some "other", some "/etc/screenrc.ansible",
    true, true, false⟩

def scrW : World :=
  ⟨["/etc/screenrc", "/etc/screenrc.distrib"],
    some ⟨"branding", "/etc/screenrc.distrib"⟩⟩

def w4c : World := ⟨["/etc/screenrc", "/etc/screenrc.distrib"], none⟩

def w8c : World := ⟨["/etc/screenrc.ansible", "/etc/screenrc"], none⟩

def w10c : World := ⟨["/etc/screenrc.distrib", "/etc/screenrc"], none⟩

/-- A scripted executor for the replace-failure scenario: the test and the
re-add fail, the forced removal succeeds and clears the registry entry,
the restore command exits with the given code. -/
def failEnv (rrc : Nat) : Env := fun c w =>
  if c = lpCmd scrP then (⟨0, "branding", ""⟩, w)
  else if c = tnCmd scrP then (⟨0, "/etc/screenrc.distrib", ""⟩, w)
  else if c = testCommand scrP then (⟨2, "", "conflict"⟩, w)
  else if c = forceRemoveCmd scrP then (⟨0, "Removing", ""⟩, ⟨w.fs, none⟩)
  else if c = buildCommandline scrP then (⟨2, "", "boom"⟩, w)
  else (⟨rrc, "restored", "restoreerr"⟩, w)

/-- An executor that always reports success and never touches the world. -/
def pureEnv : Env := fun _ w => (⟨0, "", ""⟩, w)

/-- Check-mode parameters for the purity scenario. -/
def cmP : Params := ⟨"/etc/screenrc", "present", none, none, false, false, true⟩

/-- The plain first-diversion scenario: no diversion exists yet. -/
def dirP : Params := ⟨"/etc/screenrc", "present", none, none, false, false, false⟩

def dirW : World := ⟨[], none⟩

/-- Reject scenario: conflicting diversion, force off. -/
def rejP : Params := ⟨"/etc/screenrc", "present", some "other", none, false, false, false⟩

def rejEnv : Env := fun c w =>
  if c = testCommand rejP then (⟨2, "t", "e"⟩, w)
  else if c = buildCommandline rejP then (⟨2, "out", "err"⟩, w)
  else (⟨0, "branding", ""⟩, w)

/-- Force-remove scenario: conflicting diversion, force on, state absent. -/
def frP : Params := ⟨"/etc/screenrc", "absent", some "other", none, true, true, false⟩

def frEnv : Env := fun c w =>
  if c = testCommand frP then (⟨2, "t", "e"⟩, w)
  else if c = forceRemoveCmd frP then (⟨0, "Removing", ""⟩, ⟨w.fs, none⟩)
  else (⟨0, "branding", ""⟩, w)

/-- C1 counterexample: in the ReplaceDiversion failure path with a failing
restoration command, the module terminates through the restore command's
check_rc failure handling with failed true and changed false, so it does
not report changed true regardless of whether the restoration succeeds,
contradicting the claim as stated. -/
theorem C1_restore_failure_counterexample :
    (runModule (failEnv 1) scrP scrW).1.exitSite = ExitSite.restoreFail
    ∧ (runModule (failEnv 1) scrP scrW).1.failed = true
    ∧ (runModule (failEnv 1) scrP scrW).1.changed = false := by
  decide

theorem C1_rollback_amended_witness :
    Ev.ren (newTarget scrP) (rstrip "/etc/screenrc.distrib") w8c
      ∈ (runModule (failEnv 0) scrP scrW).2.2
    ∧ Ev.cmd (restoreCmd scrP (rstrip "/etc/screenrc.distrib") (rstrip "branding"))
      ∈ (runModule (failEnv 0) scrP scrW).2.2
    ∧ (runModule (failEnv 0) scrP scrW).1.failed = true
    ∧ (runModule (failEnv 0) scrP scrW).1.changed = true := by
  have h := C1_rollback_amended (failEnv 0) scrP scrW "branding" "/etc/screenrc.distrib"
    "" "conflict" "Removing" "" "" "boom" "restored" "restoreerr" 2 2 0
    w4c w8c w10c (by decide) (by decide) (by decide) (by decide) (by decide) (by decide)
    (by decide) (by decide) (by decide) (by decide) (by decide) (by decide)
  exact ⟨h.1.mpr (by decide), h.2.1, (h.2.2 rfl).1, (h.2.2 rfl).2⟩

theorem C2_direct_apply_iff_witness :
    (runModule specExec dirP dirW).1.exitSite = ExitSite.directFail
    ∨ (runModule specExec dirP dirW).1.exitSite = ExitSite.directNoop
    ∨ (runModule specExec dirP dirW).1.exitSite = ExitSite.directChanged :=
  (C2_direct_apply_iff specExec dirP dirW).1.mpr
    (by unfold directCond probeRc probeLp; decide)

theorem C3_no_overwrite_witness :
    (if scrP.rename && (⟨["/a"], none⟩ : World).isfile "/x"
        && !((⟨["/a"], none⟩ : World).isfile "/a")
     then World.renameFile "/x" "/a" ⟨["/a"], none⟩ else (⟨["/a"], none⟩ : World))
      = (⟨["/a"], none⟩ : World) :=
  (C3_no_overwrite specExec scrP scrW).2.2 ⟨["/a"], none⟩ "/x" "/a" (by decide)

theorem C4_check_mode_purity_witness :
    (runModule pureEnv cmP scrW).2.1 = scrW :=
  (C4_check_mode_purity pureEnv cmP scrW rfl (fun _ _ _ => rfl)).1

theorem C5_premove_witness :
    newTarget scrP = "/etc/screenrc.ansible"
    ∧ Ev.ren (rstrip "/etc/screenrc.distrib") (newTarget scrP) w4c
        ∈ (runModule (failEnv 0) scrP scrW).2.2
    ∧ Ev.cmd (commandline scrP) ∈ (runModule (failEnv 0) scrP scrW).2.2 := by
  have h := C5_premove (failEnv 0) scrP scrW "branding" "/etc/screenrc.distrib"
    "" "conflict" "Removing" "" 2 w4c (by decide) (by decide) (by decide) (by decide)
    (by decide) (by decide) (by decide) (by decide) (by decide)
  exact ⟨h.1.1 _ rfl (by decide), h.2.1.mpr (by decide), h.2.2⟩

theorem C6_reject_passthrough_witness :
    (runModule rejEnv rejP scrW).1
      = ⟨ExitSite.directFail, true, false, "out", "err", [commandline rejP]⟩ :=
  (C6_reject_passthrough rejEnv rejP scrW "branding" 2 "t" "e" 2 "out" "err"
    (by decide) (by decide) (by decide) (by decide) (by decide) (by decide)).1

theorem C7_force_remove_witness :
    (runModule frEnv frP scrW).1
      = ⟨ExitSite.forceRemoveDone, false, true, "Removing", "", [forceRemoveCmd frP]⟩
    ∧ "--package" ∉ forceRemoveCmd frP := by
  have h := C7_force_remove frEnv frP scrW "branding" 2 "t" "e" "Removing" ""
    scrW scrW ⟨scrW.fs, none⟩ (by decide) (by decide) (by decide) (by decide)
    (by decide) (by decide) (by decide) (by decide)
  exact ⟨h.1, h.2.2.1⟩

theorem C8_idempotence_witness :
    (runModule specExec scrP scrW).1.changed = true
    ∧ (runModule specExec scrP (runModule specExec scrP scrW).2.1).1.changed = false := by
  have h := C8_idempotence scrP scrW (by decide) (by decide) (by decide)
    (by decide) (by decide)
  exact ⟨h.1, h.2.1⟩

theorem C9_check_parity_witness :
    (runModule specExec (setCheck dirP true) dirW).1.changed
      = (runModule specExec (setCheck dirP false) dirW).1.changed :=
  C9_check_parity dirP dirW (by decide) (by decide) (Or.inl (by decide))

theorem C10_restore_check_rc_witness :
    (runModule (failEnv 1) scrP scrW).1
      = ⟨ExitSite.restoreFail, true, false, "restored", "restoreerr",
          [restoreCmd scrP (rstrip "/etc/screenrc.distrib") (rstrip "branding")]⟩ :=
  (C10_restore_check_rc (failEnv 1) scrP scrW "branding" "/etc/screenrc.distrib"
    "" "conflict" "Removing" "" "" "boom" "restored" "restoreerr" 2 2 1
    w4c w8c w10c (by decide) (by decide) (by decide) (by decide) (by decide) (by decide)
    (by decide) (by decide) (by decide) (by decide) (by decide) (by decide)).1 (by decide)

end DpkgDivert
